import Mathlib

/-!
Shallow embedding of the `pipewriter` / `vkr-pipe` shader-interface-to-pipeline
code generator, covering:

* the vertex layout computation (`get_size`, `get_format`, the stride fold and
  the attribute/offset loop of `gen::pipeline`),
* descriptor-set partitioning (`get_sorted_sets`, `set_layout_bindings`,
  `set_layouts_methods`),
* the generated descriptor cache with its fixed pool sizing policy and fatal
  allocation failure,
* the generated per-pipeline runtime (`new`, `get_cache`, `Drop`),
* the generated module-level registry `PipelineCache` (`get`, `get_mut`,
  `create_pipeline`, implicit field drop order), and
* pipeline discovery in the proc macro (`get_pipelines`, `get_spirv`,
  `get_shader_type`).

Native (Vulkan) object creation is modelled as drawing fresh handles from a
monotone counter owned by the `Device`; descriptor-pool accounting follows the
documented fixed-capacity pool semantics.
-/

namespace Pipewriter

/-! ### Vertex input types (gen.rs `get_format` / `get_size`)

The generator's type table is closed: `get_format`/`get_size` handle exactly
`Vec2`, `Vec3`, `Vec4` and abort generation (`todo!`) on anything else, so the
registered types form this inductive. -/

inductive VertexType where
  | Vec2
  | Vec3
  | Vec4
deriving DecidableEq, Repr

inductive Format where
  | R32G32_SFLOAT
  | R32G32B32_SFLOAT
  | R32G32B32A32_SFLOAT
deriving DecidableEq, Repr

/-- gen.rs `get_format`. -/
def get_format : VertexType → Format
  | .Vec4 => .R32G32B32A32_SFLOAT
  | .Vec3 => .R32G32B32_SFLOAT
  | .Vec2 => .R32G32_SFLOAT

/-- gen.rs `get_size`: `size_of::<[f32; n]>` = 4 * n bytes. -/
def get_size : VertexType → Nat
  | .Vec4 => 16
  | .Vec3 => 12
  | .Vec2 => 8

inductive VertexInputRate where
  | VERTEX
  | INSTANCE
deriving DecidableEq, Repr

structure VertexInputBindingDescription where
  binding : Nat
  stride : Nat
  input_rate : VertexInputRate
deriving DecidableEq, Repr

/-- The single `vk::VertexInputBindingDescription` emitted by `gen::pipeline`
(lines 177–187): binding 0, stride = fold of `get_size` over `arg_types`,
input rate `VERTEX`. -/
def vertex_binding (arg_types : List VertexType) : VertexInputBindingDescription :=
  { binding := 0
    stride := arg_types.foldl (fun acc ty => acc + get_size ty) 0
    input_rate := .VERTEX }

structure VertexInputAttributeDescription where
  binding : Nat
  location : Nat
  format : Format
  offset : Nat
deriving DecidableEq, Repr

/-- The attribute loop of `gen::pipeline` (lines 189–207): `loc` is the
enumeration index, `offset` accumulates `get_size` left to right. -/
def vertex_attributes_go (loc offset : Nat) :
    List VertexType → List VertexInputAttributeDescription
  | [] => []
  | ty :: rest =>
    { binding := 0, location := loc, format := get_format ty, offset := offset } ::
      vertex_attributes_go (loc + 1) (offset + get_size ty) rest

/-- The `vertex_attributes` array emitted by `gen::pipeline`. -/
def vertex_attributes (arg_types : List VertexType) :
    List VertexInputAttributeDescription :=
  vertex_attributes_go 0 0 arg_types

/-! ### Uniform bindings and descriptor-set partitioning
(gen.rs `set_layout_bindings`, `get_sorted_sets`, `set_layouts_methods`)

`Uniform` lives in the crate's shader module; its fields below are exactly the
ones gen.rs reads: `binding`, `descriptor_set`, `get_descriptor_type()`
(the descriptor kind), `stage` (a stage-flag mask, kept abstract as a `Nat`
bitmask), and `name`. -/

inductive DescriptorType where
  | UNIFORM_BUFFER
  | COMBINED_IMAGE_SAMPLER
  | INPUT_ATTACHMENT
deriving DecidableEq, Repr

structure Uniform where
  name : String
  binding : Nat
  descriptor_set : Nat
  descriptor_type : DescriptorType
  stage : Nat
deriving DecidableEq, Repr

structure DescriptorSetLayoutBinding where
  binding : Nat
  descriptor_type : DescriptorType
  descriptor_count : Nat
  stage_flags : Nat
deriving DecidableEq, Repr

/-- gen.rs `set_layout_bindings`: the bindings emitted for one set are the
uniforms with that `descriptor_set`, kept in declaration order (a filter, no
sort), each with `descriptor_count 1`. -/
def set_layout_bindings (uniforms : List Uniform) (set : Nat) :
    List DescriptorSetLayoutBinding :=
  (uniforms.filter (fun u => u.descriptor_set == set)).map fun u =>
    { binding := u.binding
      descriptor_type := u.descriptor_type
      descriptor_count := 1
      stage_flags := u.stage }

/-- gen.rs `get_sorted_sets`: collect the distinct `descriptor_set` indices
into a set, then sort ascending. -/
def get_sorted_sets (uniforms : List Uniform) : List Nat :=
  ((uniforms.map (·.descriptor_set)).dedup).insertionSort (· ≤ ·)

/-- gen.rs `set_layouts_methods` / the generated `new_set_layouts`: one
`create_set_layout` call per sorted set index, passing that set's bindings.
This is the content view (the bindings each created layout is given). -/
def new_set_layouts_bindings (uniforms : List Uniform) :
    List (List DescriptorSetLayoutBinding) :=
  (get_sorted_sets uniforms).map (set_layout_bindings uniforms)

/-! ### The native device, modelled as a fresh-handle allocator

Native creation calls (`create_descriptor_set_layout`, `create_pipeline_layout`,
`create_graphics_pipelines`, `create_descriptor_pool`, `Pass::new`,
`ShaderModule::new`) each return a handle to a newly created object; we model
this with a monotone counter, so distinct live objects have distinct handles. -/

structure Device where
  next : Nat
deriving DecidableEq, Repr

def Device.alloc (d : Device) : Nat × Device :=
  (d.next, ⟨d.next + 1⟩)

/-- Native resource creation/destruction events, used to state ordering
properties of construction and `Drop`. -/
inductive Event where
  | create_set_layout (h : Nat)
  | create_pipeline_layout (h : Nat)
  | create_pipeline_handle (h : Nat)
  | create_pool (h : Nat)
  | destroy_pipeline_handle (h : Nat)
  | destroy_pipeline_layout (h : Nat)
  | destroy_set_layout (h : Nat)
  | destroy_pool (h : Nat)
deriving DecidableEq, Repr

/-- Resource classes, for stating class-level (reverse-)ordering. -/
inductive ResourceClass where
  | pipelineObj
  | pipelineLayout
  | setLayout
  | pool
deriving DecidableEq, Repr

def Event.classOf : Event → ResourceClass
  | .create_set_layout _ | .destroy_set_layout _ => .setLayout
  | .create_pipeline_layout _ | .destroy_pipeline_layout _ => .pipelineLayout
  | .create_pipeline_handle _ | .destroy_pipeline_handle _ => .pipelineObj
  | .create_pool _ | .destroy_pool _ => .pool

/-! ### The generated descriptor cache (`PipelineCache<Name>` in gen.rs)

`new` creates a descriptor pool with literal capacities — `uniform_count = 32`,
`sampler_count = 16`, `input_count = 3`, `max_sets = 16` — that do not mention
the pipeline interface at all. `allocate` performs one batched native
allocation and `expect`s the result: a failed allocation aborts the process.
The pool's accounting (allocation fails once a capacity would be exceeded) is
the documented behaviour of the external fixed-capacity descriptor pool. -/

structure DescriptorPoolSizes where
  uniform_count : Nat
  sampler_count : Nat
  input_count : Nat
  max_sets : Nat
deriving DecidableEq, Repr

structure DescriptorPool where
  sizes : DescriptorPoolSizes
  allocated_sets : Nat
  allocated_uniforms : Nat
  allocated_samplers : Nat
  allocated_inputs : Nat
deriving DecidableEq, Repr

structure PipelineInterface where
  name : String
  arg_types : List VertexType
  uniforms : List Uniform
deriving DecidableEq, Repr

instance : Inhabited PipelineInterface := ⟨⟨"", [], []⟩⟩

structure DescriptorCache where
  sets : List (Nat × List Nat)
  pool : DescriptorPool
  pool_handle : Nat
deriving DecidableEq, Repr

instance : Inhabited DescriptorCache :=
  ⟨⟨[], ⟨⟨0, 0, 0, 0⟩, 0, 0, 0, 0⟩, 0⟩⟩

/-- The literal pool sizes in the generated `PipelineCache<Name>::new`. The
argument is the pipeline interface the generator is expanding: the emitted
constants never consult it. -/
def gen_pool_sizes (_pipeline : PipelineInterface) : DescriptorPoolSizes :=
  { uniform_count := 32, sampler_count := 16, input_count := 3, max_sets := 16 }

/-- Generated `PipelineCache<Name>::new`: create the fixed-capacity descriptor
pool (one native creation, hence a fresh handle) and an empty `sets` map. -/
def descriptor_cache_new (pipeline : PipelineInterface) (d : Device) :
    DescriptorCache × Device :=
  let a := d.alloc
  ({ sets := []
     pool := { sizes := gen_pool_sizes pipeline
               allocated_sets := 0, allocated_uniforms := 0
               allocated_samplers := 0, allocated_inputs := 0 }
     pool_handle := a.1 }, a.2)

/-- Total demand of one batched allocation request for a given descriptor
kind: the summed `descriptor_count` over all bindings of that kind in the
requested layouts. -/
def layouts_demand (layouts : List (List DescriptorSetLayoutBinding))
    (k : DescriptorType) : Nat :=
  (layouts.map fun bs =>
    ((bs.filter (fun b => b.descriptor_type == k)).map (·.descriptor_count)).sum).sum

/-- The external device's batched `allocate_descriptor_sets` against a
fixed-capacity pool: it fails (returns `none`) as soon as the requested sets
would exceed `max_sets` or any per-kind capacity; on success it returns the
updated pool accounting. -/
def pool_allocate (p : DescriptorPool)
    (layouts : List (List DescriptorSetLayoutBinding)) : Option DescriptorPool :=
  if p.allocated_sets + layouts.length ≤ p.sizes.max_sets ∧
     p.allocated_uniforms + layouts_demand layouts .UNIFORM_BUFFER ≤ p.sizes.uniform_count ∧
     p.allocated_samplers + layouts_demand layouts .COMBINED_IMAGE_SAMPLER ≤ p.sizes.sampler_count ∧
     p.allocated_inputs + layouts_demand layouts .INPUT_ATTACHMENT ≤ p.sizes.input_count
  then some
    { p with
      allocated_sets := p.allocated_sets + layouts.length
      allocated_uniforms := p.allocated_uniforms + layouts_demand layouts .UNIFORM_BUFFER
      allocated_samplers := p.allocated_samplers + layouts_demand layouts .COMBINED_IMAGE_SAMPLER
      allocated_inputs := p.allocated_inputs + layouts_demand layouts .INPUT_ATTACHMENT }
  else none

/-- Generated `allocate`: one batched native allocation whose failure is
`expect`ed — `none` here is the process aborting; there is no retry and no
recovery branch. -/
def DescriptorCache.allocate (c : DescriptorCache)
    (layouts : List (List DescriptorSetLayoutBinding)) : Option DescriptorCache :=
  match pool_allocate c.pool layouts with
  | none => none
  | some p' => some { c with pool := p' }

/-! ### The generated per-pipeline runtime type (`Pipeline<Name>` in gen.rs) -/

structure PipelineStruct where
  caches : List DescriptorCache
  pipeline : Nat
  layout : Nat
  set_layouts : List Nat
  name : String
deriving DecidableEq, Repr

/-- Generated `new_set_layouts` (handle view): one
`create_set_layout` native call per sorted set index, in ascending order.
Returns the created handles, the device, and the creation events in call
order. -/
def create_set_layouts (d : Device) : List Nat → List Nat × Device × List Event
  | [] => ([], d, [])
  | _set :: rest =>
    let a := d.alloc
    let r := create_set_layouts a.2 rest
    (a.1 :: r.1, r.2.1, .create_set_layout a.1 :: r.2.2)

/-- Generated `Pipeline<Name>::new`: set layouts first (ascending set order),
then the pipeline layout, then the pipeline object; `caches` starts empty.
Returns the struct, the device, and the native creation events in order. -/
def pipeline_new (pipeline : PipelineInterface) (d : Device) :
    PipelineStruct × Device × List Event :=
  let csl := create_set_layouts d (get_sorted_sets pipeline.uniforms)
  let la := csl.2.1.alloc
  let pa := la.2.alloc
  ({ caches := [], pipeline := pa.1, layout := la.1,
     set_layouts := csl.1, name := pipeline.name },
   pa.2, csl.2.2 ++ [.create_pipeline_layout la.1, .create_pipeline_handle pa.1])

/-- Generated `Drop for Pipeline<Name>` followed by Rust's field drops:
the `drop` body destroys the pipeline, then the pipeline layout, then each
set layout (in stored, i.e. ascending-set, order); afterwards the `caches`
field is dropped, destroying each cache's pool. -/
def pipeline_drop_trace (p : PipelineStruct) : List Event :=
  .destroy_pipeline_handle p.pipeline ::
    .destroy_pipeline_layout p.layout ::
      ((p.set_layouts.map .destroy_set_layout) ++
        (p.caches.map fun c => .destroy_pool c.pool_handle))

/-- Generated `get_cache`: `while index >= caches.len() { caches.push(new) }`,
then return the cache at `index`. -/
def get_cache (pipeline : PipelineInterface) (p : PipelineStruct) (d : Device)
    (index : Nat) : PipelineStruct × Device :=
  if _h : p.caches.length ≤ index then
    let cd := descriptor_cache_new pipeline d
    get_cache pipeline { p with caches := p.caches ++ [cd.1] } cd.2 index
  else
    (p, d)
termination_by index + 1 - p.caches.length
decreasing_by simp_all; omega

/-- The reference `get_cache` returns: the element at `index` after growth. -/
def get_cache_ret (pipeline : PipelineInterface) (p : PipelineStruct)
    (d : Device) (index : Nat) : DescriptorCache :=
  (get_cache pipeline p d index).1.caches.getD index default

/-! ### The generated module registry (`PipelineCache` in gen.rs `cache`)

One slot per pipeline identity (the `Shader<Module>` enum discriminant), a
lazily built shared shader module, and the render pass. The identity is a
`Nat` index into `ifaces`, the module's discovered pipeline interfaces. -/

structure RegistryState where
  pass : Nat
  pipelines : List (Option PipelineStruct)
  shader_module : Option Nat
  device : Device
deriving DecidableEq, Repr

/-- Generated `PipelineCache::new`: `Pass::new(dev)` (a native render-pass
creation), every slot `None`, no shader module yet. -/
def registry_new (ifaces : List PipelineInterface) (d : Device) : RegistryState :=
  let a := d.alloc
  { pass := a.1
    pipelines := ifaces.map fun _ => none
    shader_module := none
    device := a.2 }

/-- Generated `get_shader_module`: build the shared shader module on first
use, reuse it afterwards. -/
def get_shader_module (s : RegistryState) : Nat × RegistryState :=
  match s.shader_module with
  | some m => (m, s)
  | none =>
    let a := s.device.alloc
    (a.1, { s with shader_module := some a.1, device := a.2 })

/-- Generated `PipelineCache::create_pipeline`: `assert!(slot.is_none())`
(modelled as `none` = panic when it fails), then build the variant for that
identity via the enum's `create_pipeline` dispatch and store it. -/
def registry_create_pipeline (ifaces : List PipelineInterface)
    (s : RegistryState) (i : Nat) : Option RegistryState :=
  if (s.pipelines.getD i none).isSome then none
  else
    let s1 := (get_shader_module s).2
    let pdt := pipeline_new (ifaces.getD i default) s1.device
    some { s1 with pipelines := s1.pipelines.set i (some pdt.1), device := pdt.2.1 }

/-- Generated `PipelineCache::get`: construct on first request, then return
the stored variant (`as_ref().unwrap()`, whose panic is also `none`). -/
def registry_get (ifaces : List PipelineInterface) (s : RegistryState)
    (i : Nat) : Option (PipelineStruct × RegistryState) :=
  (if (s.pipelines.getD i none).isNone
   then registry_create_pipeline ifaces s i
   else some s).bind fun s2 =>
    (s2.pipelines.getD i none).map fun p => (p, s2)

/-- Generated `PipelineCache::get_mut`: same lazy-construction body as `get`,
returning mutable access to the same stored variant. -/
def registry_get_mut (ifaces : List PipelineInterface) (s : RegistryState)
    (i : Nat) : Option (PipelineStruct × RegistryState) :=
  (if (s.pipelines.getD i none).isNone
   then registry_create_pipeline ifaces s i
   else some s).bind fun s2 =>
    (s2.pipelines.getD i none).map fun p => (p, s2)

/-- Walk the `pipelines` array from slot `n` upward, collecting the `Some`
variants in the order Rust's array drop glue reaches them. -/
def drop_variants_go (n : Nat) : List (Option PipelineStruct) → List (Nat × PipelineStruct)
  | [] => []
  | none :: rest => drop_variants_go (n + 1) rest
  | some v :: rest => (n, v) :: drop_variants_go (n + 1) rest

/-- Rust drops the `pipelines` array field element by element in index
order; each `Some` variant is dropped there, so the variants are released as
this list, in ascending slot order. -/
def registry_drop_variants (s : RegistryState) : List (Nat × PipelineStruct) :=
  drop_variants_go 0 s.pipelines

/-- A sequence of `get` calls against the registry, recording which calls
constructed their variant (slot was empty): the construction order. -/
def run_gets (ifaces : List PipelineInterface) :
    RegistryState → List Nat → Option (RegistryState × List Nat)
  | s, [] => some (s, [])
  | s, i :: rest =>
    match registry_get ifaces s i with
    | none => none
    | some ps =>
      (run_gets ifaces ps.2 rest).map fun so =>
        (so.1, (if (s.pipelines.getD i none).isNone then [i] else []) ++ so.2)

/-! ### Pipeline discovery (pipewriter/src/lib.rs)

`syn` metadata is modelled by the shapes lib.rs inspects: an attribute that
parses to a `Meta`, a `Meta::List`'s nested items, and `Meta::Path` idents.
Attributes whose `parse_meta()` fails are filtered out by lib.rs, so `attrs`
holds the successfully parsed metas. -/

inductive NestedMeta where
  | metaPath (ident : String)
  | metaList (ident : String)
  | metaNameValue (ident : String)
  | lit
deriving DecidableEq, Repr

inductive Meta where
  | path (ident : String)
  | list (ident : String) (nested : List NestedMeta)
  | nameValue (ident : String)
deriving DecidableEq, Repr

structure Func where
  name : String
  attrs : List Meta
deriving DecidableEq, Repr

inductive ShaderType where
  | Vertex
  | Fragment
deriving DecidableEq, Repr

/-- lib.rs `get_spirv`: among the function's parsed attribute metas, keep the
`Meta::List`s whose path ident is `spirv`, and take the first. -/
def get_spirv (f : Func) : Option (List NestedMeta) :=
  (f.attrs.filterMap fun m =>
    match m with
    | .list ident nested => if ident == "spirv" then some nested else none
    | _ => none).head?

/-- lib.rs `get_shader_type`: scan the nested metas for a `Meta::Path` whose
ident is `vertex` or `fragment`; first match wins, otherwise `None`. -/
def get_shader_type : List NestedMeta → Option ShaderType
  | [] => none
  | .metaPath ident :: rest =>
    if ident == "vertex" then some .Vertex
    else if ident == "fragment" then some .Fragment
    else get_shader_type rest
  | _ :: rest => get_shader_type rest

/-- Whether a character list ends in `_fs` or `_vs`. -/
def ends_with_stage_suffix (cs : List Char) : Bool :=
  match cs.reverse with
  | c1 :: c2 :: c3 :: _ => c3 = '_' && (c2 = 'f' || c2 = 'v') && c1 = 's'
  | _ => false

/-- Modelled from the spec: `util.rs` (`get_prefix`) is not under `src/`.
The spec says a pipeline is "named by the entry point's common prefix,
derived from a common name prefix shared with its paired vertex entry point
(e.g., stripping a `_fs`/`_vs` suffix)". -/
def entry_point_base (name : String) : String :=
  if ends_with_stage_suffix name.data
  then ⟨name.data.take (name.data.length - 3)⟩
  else name

def camel_go : Bool → List Char → List Char
  | _, [] => []
  | up, c :: rest =>
    if c = '_' then camel_go true rest
    else (if up then c.toUpper else c) :: camel_go false rest

/-- Modelled from the spec: `util.rs` (the `Camelcase` trait) is not under
`src/`. Generated names such as `PipelineMain` for entry point `main_fs`
capitalize each underscore-separated word and join them. -/
def to_camelcase (s : String) : String :=
  ⟨camel_go true s.data⟩

structure DiscoveredPipeline where
  name : String
deriving DecidableEq, Repr

/-- lib.rs `get_pipelines`: walk the module's functions; every function whose
spirv metadata classifies it as a fragment stage pushes exactly one pipeline,
named by the camelcased common prefix of its entry point; nothing else
contributes. -/
def get_pipelines (funcs : List Func) : List DiscoveredPipeline :=
  funcs.filterMap fun f =>
    (get_spirv f).bind fun spirv =>
      match get_shader_type spirv with
      | some .Fragment => some ⟨to_camelcase (entry_point_base f.name)⟩
      | _ => none

/-- Whether lib.rs classifies a function as a fragment entry point. -/
def is_fragment_entry (f : Func) : Bool :=
  match (get_spirv f).bind get_shader_type with
  | some .Fragment => true
  | _ => false

/-! ### Color blend state (gen.rs `new_impl`, the `blend_attachments` array) -/

structure ColorComponentFlags where
  r : Bool
  g : Bool
  b : Bool
  a : Bool
deriving DecidableEq, Repr

inductive BlendFactor where
  | SRC_ALPHA
  | ONE_MINUS_SRC_ALPHA
  | ONE
  | ZERO
deriving DecidableEq, Repr

inductive BlendOp where
  | ADD
deriving DecidableEq, Repr

structure PipelineColorBlendAttachmentState where
  blend_enable : Bool
  color_write_mask : ColorComponentFlags
  src_color_blend_factor : BlendFactor
  dst_color_blend_factor : BlendFactor
  color_blend_op : BlendOp
  src_alpha_blend_factor : BlendFactor
  dst_alpha_blend_factor : BlendFactor
deriving DecidableEq, Repr

/-- The two-entry `blend_attachments` array literal in the generated
`new_impl`. Like the pool sizes, it never consults the pipeline interface the
generator is expanding; both entries enable blending and write `R | G | B`
only (the builder sets `color_blend_op(ADD)` twice; the second call just
overwrites the first with the same value). -/
def blend_attachments (_pipeline : PipelineInterface) :
    List PipelineColorBlendAttachmentState :=
  [ { blend_enable := true
      color_write_mask := { r := true, g := true, b := true, a := false }
      src_color_blend_factor := .SRC_ALPHA
      dst_color_blend_factor := .ONE_MINUS_SRC_ALPHA
      color_blend_op := .ADD
      src_alpha_blend_factor := .ONE
      dst_alpha_blend_factor := .ZERO },
    { blend_enable := true
      color_write_mask := { r := true, g := true, b := true, a := false }
      src_color_blend_factor := .SRC_ALPHA
      dst_color_blend_factor := .ONE_MINUS_SRC_ALPHA
      color_blend_op := .ADD
      src_alpha_blend_factor := .ONE
      dst_alpha_blend_factor := .ZERO } ]

instance : Inhabited VertexInputAttributeDescription :=
  ⟨⟨0, 0, .R32G32_SFLOAT, 0⟩⟩

/-! ## Theorems -/

theorem foldl_add_get_size (args : List VertexType) :
    ∀ n : Nat, args.foldl (fun acc ty => acc + get_size ty) n
      = n + (args.map get_size).sum := by
  induction args with
  | nil => intro n; simp
  | cons ty rest ih =>
    intro n
    simp only [List.foldl_cons, List.map_cons, List.sum_cons, ih]
    omega

theorem vertex_attributes_go_length (args : List VertexType) :
    ∀ loc off, (vertex_attributes_go loc off args).length = args.length := by
  induction args with
  | nil => intro loc off; rfl
  | cons ty rest ih =>
    intro loc off
    simp [vertex_attributes_go, ih]

theorem vertex_attributes_go_getD (args : List VertexType) :
    ∀ loc off i, i < args.length →
      (vertex_attributes_go loc off args).getD i default =
        { binding := 0, location := loc + i,
          format := get_format (args.getD i .Vec2),
          offset := off + ((args.take i).map get_size).sum } := by
  induction args with
  | nil => intro loc off i h; simp at h
  | cons ty rest ih =>
    intro loc off i h
    cases i with
    | zero => simp [vertex_attributes_go]
    | succ n =>
      have hn : n < rest.length := by simpa using Nat.lt_of_succ_lt_succ h
      simp only [vertex_attributes_go, List.getD_cons_succ, List.take_succ_cons,
        List.map_cons, List.sum_cons]
      rw [ih (loc + 1) (off + get_size ty) n hn]
      simp only [VertexInputAttributeDescription.mk.injEq, true_and, and_true,
        eq_self_iff_true]
      omega

/-- C2: for every ordered list of vertex inputs drawn from the registered
types, the computed vertex layout uses a single binding at slot 0 with VERTEX
input rate, stride equal to the sum of all input sizes, per-attribute offsets
accumulating strictly left-to-right (the offset of input `i` is the sum of
the sizes of the inputs before it), and location equal to the 0-based
declaration index; in particular `[Vec3, Vec3, Vec2]` gives stride 32,
offsets `[0, 12, 24]` and locations `[0, 1, 2]`. -/
theorem c2_vertex_layout (args : List VertexType) :
    (vertex_binding args).binding = 0 ∧
    (vertex_binding args).input_rate = .VERTEX ∧
    (vertex_binding args).stride = (args.map get_size).sum ∧
    (vertex_attributes args).length = args.length ∧
    (∀ i, i < args.length →
      ((vertex_attributes args).getD i default).binding = 0 ∧
      ((vertex_attributes args).getD i default).location = i ∧
      ((vertex_attributes args).getD i default).offset
        = ((args.take i).map get_size).sum) ∧
    (vertex_binding [.Vec3, .Vec3, .Vec2]).stride = 32 ∧
    (vertex_attributes [.Vec3, .Vec3, .Vec2]).map (·.offset) = [0, 12, 24] ∧
    (vertex_attributes [.Vec3, .Vec3, .Vec2]).map (·.location) = [0, 1, 2] := by
  refine ⟨rfl, rfl, ?_, ?_, ?_, by decide, by decide, by decide⟩
  · simpa [vertex_binding] using foldl_add_get_size args 0
  · exact vertex_attributes_go_length args 0 0
  · intro i hi
    rw [vertex_attributes, vertex_attributes_go_getD args 0 0 i hi]
    exact ⟨rfl, by simp, by simp⟩

theorem c2_vertex_layout_witness :
    0 < 3 ∧
    ((vertex_attributes [.Vec3, .Vec3, .Vec2]).getD 1 default).offset = 12 := by
  refine ⟨by decide, ?_⟩
  have h := (c2_vertex_layout [.Vec3, .Vec3, .Vec2]).2.2.2.2.1 1 (by decide)
  simpa using h.2.2

theorem get_sorted_sets_perm_dedup (uniforms : List Uniform) :
    (get_sorted_sets uniforms).Perm (uniforms.map (·.descriptor_set)).dedup :=
  List.perm_insertionSort _ _

/-- Example uniforms with set indices `{2, 0, 1}` (in declaration order). -/
def uniforms201 : List Uniform :=
  [ ⟨"a", 0, 2, .UNIFORM_BUFFER, 1⟩,
    ⟨"b", 0, 0, .UNIFORM_BUFFER, 1⟩,
    ⟨"c", 0, 1, .COMBINED_IMAGE_SAMPLER, 2⟩ ]

/-- Example uniforms in one set whose declaration order (slots 5 then 3)
disagrees with ascending slot order. -/
def uniformsSlot53 : List Uniform :=
  [ ⟨"u", 5, 0, .UNIFORM_BUFFER, 1⟩,
    ⟨"v", 3, 0, .UNIFORM_BUFFER, 1⟩ ]

/-- C3: the registry of descriptor sets is the distinct set indices sorted
ascending; exactly one set layout is generated per distinct set index, in
that order; within one set the emitted binding order is declaration order
(the order-preserving filter of the uniforms), not numeric slot order.
Concretely, set indices `{2, 0, 1}` give sorted sets `[0, 1, 2]` and a
3-entry layout list, and uniforms declared with slots `[5, 3]` in one set
keep binding order `[5, 3]`. -/
theorem c3_set_partition (uniforms : List Uniform) :
    List.Sorted (· ≤ ·) (get_sorted_sets uniforms) ∧
    (get_sorted_sets uniforms).Nodup ∧
    (∀ a, a ∈ get_sorted_sets uniforms ↔ ∃ u ∈ uniforms, u.descriptor_set = a) ∧
    (new_set_layouts_bindings uniforms).length = (get_sorted_sets uniforms).length ∧
    (∀ i, i < (get_sorted_sets uniforms).length →
      (new_set_layouts_bindings uniforms).getD i []
        = set_layout_bindings uniforms ((get_sorted_sets uniforms).getD i 0)) ∧
    (∀ s, (set_layout_bindings uniforms s).map (·.binding)
        = (uniforms.filter (fun u => u.descriptor_set == s)).map (·.binding)) ∧
    get_sorted_sets uniforms201 = [0, 1, 2] ∧
    (new_set_layouts_bindings uniforms201).length = 3 ∧
    (set_layout_bindings uniformsSlot53 0).map (·.binding) = [5, 3] := by
  refine ⟨?_, ?_, ?_, ?_, ?_, ?_, by decide, by decide, by decide⟩
  · exact List.sorted_insertionSort (· ≤ ·) _
  · exact ((get_sorted_sets_perm_dedup uniforms).nodup_iff).mpr (List.nodup_dedup _)
  · intro a
    rw [(get_sorted_sets_perm_dedup uniforms).mem_iff, List.mem_dedup, List.mem_map]
  · simp [new_set_layouts_bindings]
  · intro i hi
    simp [new_set_layouts_bindings, List.getD_eq_getElem?_getD,
      List.getElem?_map, List.getElem?_eq_getElem hi]
  · intro s
    simp [set_layout_bindings]

theorem c3_set_partition_witness :
    0 < (get_sorted_sets uniforms201).length ∧
    (new_set_layouts_bindings uniforms201).getD 0 []
      = set_layout_bindings uniforms201 ((get_sorted_sets uniforms201).getD 0 0) :=
  ⟨by decide, (c3_set_partition uniforms201).2.2.2.2.1 0 (by decide)⟩

/-- C4: every generated descriptor cache is created with the fixed pool
sizing policy (32 uniform buffers, 16 combined image samplers, 3 input
attachments, at most 16 sets) — the same literal constants for every pipeline
interface — and a failed (exhausting) allocation is fatal (`none`, the
`expect` abort), never recovered or retried: `allocate` fails exactly when
the native pool allocation fails. -/
theorem c4_pool_policy (pipeline : PipelineInterface) (d : Device)
    (c : DescriptorCache) (layouts : List (List DescriptorSetLayoutBinding)) :
    (descriptor_cache_new pipeline d).1.pool.sizes
      = { uniform_count := 32, sampler_count := 16, input_count := 3, max_sets := 16 } ∧
    gen_pool_sizes pipeline
      = { uniform_count := 32, sampler_count := 16, input_count := 3, max_sets := 16 } ∧
    (c.allocate layouts = none ↔ pool_allocate c.pool layouts = none) ∧
    (c.pool.allocated_sets + layouts.length > c.pool.sizes.max_sets →
      c.allocate layouts = none) ∧
    (c.pool.allocated_uniforms + layouts_demand layouts .UNIFORM_BUFFER
        > c.pool.sizes.uniform_count → c.allocate layouts = none) ∧
    (c.pool.allocated_samplers + layouts_demand layouts .COMBINED_IMAGE_SAMPLER
        > c.pool.sizes.sampler_count → c.allocate layouts = none) ∧
    (c.pool.allocated_inputs + layouts_demand layouts .INPUT_ATTACHMENT
        > c.pool.sizes.input_count → c.allocate layouts = none) := by
  refine ⟨rfl, rfl, ?_, ?_, ?_, ?_, ?_⟩
  · unfold DescriptorCache.allocate
    cases pool_allocate c.pool layouts <;> simp
  all_goals
    intro h
    unfold DescriptorCache.allocate pool_allocate
    rw [if_neg (by omega)]

theorem c4_pool_policy_witness :
    (⟨[], ⟨⟨32, 16, 3, 16⟩, 0, 0, 0, 0⟩, 0⟩ : DescriptorCache).pool.allocated_sets
        + (List.replicate 17 ([] : List DescriptorSetLayoutBinding)).length
        > (⟨[], ⟨⟨32, 16, 3, 16⟩, 0, 0, 0, 0⟩, 0⟩ : DescriptorCache).pool.sizes.max_sets ∧
    (⟨[], ⟨⟨32, 16, 3, 16⟩, 0, 0, 0, 0⟩, 0⟩ : DescriptorCache).allocate
        (List.replicate 17 []) = none :=
  ⟨by decide,
   (c4_pool_policy default ⟨0⟩ ⟨[], ⟨⟨32, 16, 3, 16⟩, 0, 0, 0, 0⟩, 0⟩
      (List.replicate 17 [])).2.2.2.1 (by decide)⟩

/-- C10: the two color-blend attachment states the generator emits — for
every generated pipeline — enable blending and set a color write mask
covering exactly R, G and B: the alpha component is never written. -/
theorem c10_blend_mask (pipeline : PipelineInterface) :
    (blend_attachments pipeline).length = 2 ∧
    ∀ att ∈ blend_attachments pipeline,
      att.blend_enable = true ∧
      att.color_write_mask = { r := true, g := true, b := true, a := false } ∧
      att.color_write_mask.a = false := by
  refine ⟨rfl, ?_⟩
  intro att h
  simp only [blend_attachments, List.mem_cons, List.not_mem_nil, or_false] at h
  rcases h with rfl | rfl <;> exact ⟨rfl, rfl, rfl⟩

instance : Inhabited PipelineColorBlendAttachmentState :=
  ⟨⟨false, ⟨false, false, false, false⟩, .ONE, .ZERO, .ADD, .ONE, .ZERO⟩⟩

theorem c10_blend_mask_witness :
    ((blend_attachments default).getD 0 default).blend_enable = true ∧
    ((blend_attachments default).getD 0 default).color_write_mask.a = false ∧
    ((blend_attachments default).getD 1 default).color_write_mask.a = false :=
  ⟨(((c10_blend_mask default).2 ((blend_attachments default).getD 0 default)
      (by decide)).1 :),
   (((c10_blend_mask default).2 ((blend_attachments default).getD 0 default)
      (by decide)).2.2 :),
   (((c10_blend_mask default).2 ((blend_attachments default).getD 1 default)
      (by decide)).2.2 :)⟩

theorem get_cache_in_range (pipeline : PipelineInterface) (p : PipelineStruct)
    (d : Device) (index : Nat) (h : index < p.caches.length) :
    get_cache pipeline p d index = (p, d) := by
  rw [get_cache, dif_neg (by omega)]

theorem get_cache_step (pipeline : PipelineInterface) (p : PipelineStruct)
    (d : Device) (index : Nat) (h : p.caches.length ≤ index) :
    get_cache pipeline p d index
      = get_cache pipeline
          { p with caches := p.caches ++ [(descriptor_cache_new pipeline d).1] }
          (descriptor_cache_new pipeline d).2 index := by
  rw [get_cache, dif_pos h]

theorem get_cache_grow_fuel (pipeline : PipelineInterface) (index : Nat) :
    ∀ (n : Nat) (p : PipelineStruct) (d : Device),
      index + 1 - p.caches.length ≤ n →
      ((get_cache pipeline p d index).1.caches.length
          = max p.caches.length (index + 1) ∧
       ∀ i, i < p.caches.length →
         (get_cache pipeline p d index).1.caches.getD i default
           = p.caches.getD i default) := by
  intro n
  induction n with
  | zero =>
    intro p d hn
    rw [get_cache_in_range pipeline p d index (by omega)]
    exact ⟨by dsimp only; omega, fun i _ => rfl⟩
  | succ m ih =>
    intro p d hn
    by_cases h : p.caches.length ≤ index
    · rw [get_cache_step pipeline p d index h]
      have ih2 := ih
        { p with caches := p.caches ++ [(descriptor_cache_new pipeline d).1] }
        (descriptor_cache_new pipeline d).2 (by simp; omega)
      refine ⟨?_, ?_⟩
      · rw [ih2.1]; simp; omega
      · intro i hi
        rw [ih2.2 i (by simp; omega)]
        exact List.getD_append _ _ _ _ hi
    · rw [get_cache_in_range pipeline p d index (by omega)]
      exact ⟨by dsimp only; omega, fun i _ => rfl⟩

theorem get_cache_grow (pipeline : PipelineInterface) (p : PipelineStruct)
    (d : Device) (index : Nat) :
    (get_cache pipeline p d index).1.caches.length
        = max p.caches.length (index + 1) ∧
    ∀ i, i < p.caches.length →
      (get_cache pipeline p d index).1.caches.getD i default
        = p.caches.getD i default :=
  get_cache_grow_fuel pipeline index (index + 1) p d (by omega)

/-- C5: `get_cache` grows the variant's descriptor-cache list on demand until
`index` is in range (final length `max (old length) (index + 1)`, so the list
never shrinks and existing entries are untouched) and returns the instance at
that position; a later call with an in-range index returns the state
unchanged and the previously created instance at that position; in
particular, starting from zero caches, `get_cache _ 3` grows the list to
length 4. -/
theorem c5_get_cache (pipeline : PipelineInterface) (p : PipelineStruct)
    (d : Device) (index i2 : Nat) :
    (get_cache pipeline p d index).1.caches.length
      = max p.caches.length (index + 1) ∧
    index < (get_cache pipeline p d index).1.caches.length ∧
    p.caches.length ≤ (get_cache pipeline p d index).1.caches.length ∧
    (∀ i, i < p.caches.length →
      (get_cache pipeline p d index).1.caches.getD i default
        = p.caches.getD i default) ∧
    get_cache_ret pipeline p d index
      = (get_cache pipeline p d index).1.caches.getD index default ∧
    (i2 < (get_cache pipeline p d index).1.caches.length →
      get_cache pipeline (get_cache pipeline p d index).1
          (get_cache pipeline p d index).2 i2
        = ((get_cache pipeline p d index).1, (get_cache pipeline p d index).2) ∧
      get_cache_ret pipeline (get_cache pipeline p d index).1
          (get_cache pipeline p d index).2 i2
        = (get_cache pipeline p d index).1.caches.getD i2 default) ∧
    (p.caches = [] → (get_cache pipeline p d 3).1.caches.length = 4) := by
  have hg := get_cache_grow pipeline p d index
  refine ⟨hg.1, by rw [hg.1]; omega, by rw [hg.1]; omega, hg.2, rfl, ?_, ?_⟩
  · intro h2
    have he := get_cache_in_range pipeline (get_cache pipeline p d index).1
      (get_cache pipeline p d index).2 i2 h2
    exact ⟨he, by rw [get_cache_ret, he]⟩
  · intro h0
    rw [(get_cache_grow pipeline p d 3).1, h0]
    rfl

theorem c5_get_cache_witness :
    (0 : Nat) < 4 ∧
    (get_cache default ⟨[], 0, 0, [], ""⟩ ⟨0⟩ 3).1.caches.length = 4 ∧
    get_cache default (get_cache default ⟨[], 0, 0, [], ""⟩ ⟨0⟩ 3).1
        (get_cache default ⟨[], 0, 0, [], ""⟩ ⟨0⟩ 3).2 1
      = ((get_cache default ⟨[], 0, 0, [], ""⟩ ⟨0⟩ 3).1,
         (get_cache default ⟨[], 0, 0, [], ""⟩ ⟨0⟩ 3).2) := by
  have h := c5_get_cache default ⟨[], 0, 0, [], ""⟩ ⟨0⟩ 3 1
  refine ⟨by decide, h.2.2.2.2.2.2 rfl, ?_⟩
  exact (h.2.2.2.2.2.1 (by rw [h.1]; decide)).1

theorem create_set_layouts_spec (sets : List Nat) :
    ∀ d : Device,
      (create_set_layouts d sets).1.length = sets.length ∧
      (create_set_layouts d sets).2.2
        = (create_set_layouts d sets).1.map Event.create_set_layout := by
  induction sets with
  | nil => intro d; exact ⟨rfl, rfl⟩
  | cons s rest ih =>
    intro d
    simp only [create_set_layouts, List.length_cons, List.map_cons]
    exact ⟨by rw [(ih _).1], by rw [(ih _).2]⟩

theorem create_set_layouts_next (sets : List Nat) :
    ∀ d : Device, d.next ≤ (create_set_layouts d sets).2.1.next := by
  induction sets with
  | nil => intro d; exact le_refl _
  | cons s rest ih =>
    intro d
    simp only [create_set_layouts]
    exact le_trans (Nat.le_succ _) (ih _)

theorem pipeline_new_spec (pipeline : PipelineInterface) (d : Device) :
    (pipeline_new pipeline d).1.caches = [] ∧
    (pipeline_new pipeline d).1.set_layouts.length
      = (get_sorted_sets pipeline.uniforms).length ∧
    d.next ≤ (pipeline_new pipeline d).1.layout ∧
    (pipeline_new pipeline d).1.layout < (pipeline_new pipeline d).1.pipeline ∧
    (pipeline_new pipeline d).1.pipeline < (pipeline_new pipeline d).2.1.next ∧
    (pipeline_new pipeline d).2.2
      = ((pipeline_new pipeline d).1.set_layouts.map Event.create_set_layout)
          ++ [.create_pipeline_layout (pipeline_new pipeline d).1.layout,
              .create_pipeline_handle (pipeline_new pipeline d).1.pipeline] := by
  refine ⟨rfl, (create_set_layouts_spec _ d).1, create_set_layouts_next _ d,
    Nat.lt_succ_self _, Nat.lt_succ_self _, ?_⟩
  show (create_set_layouts d (get_sorted_sets pipeline.uniforms)).2.2
      ++ [Event.create_pipeline_layout
            (create_set_layouts d (get_sorted_sets pipeline.uniforms)).2.1.next,
          Event.create_pipeline_handle
            ((create_set_layouts d (get_sorted_sets pipeline.uniforms)).2.1.next + 1)]
    = ((create_set_layouts d (get_sorted_sets pipeline.uniforms)).1.map
          Event.create_set_layout)
      ++ [Event.create_pipeline_layout
            (create_set_layouts d (get_sorted_sets pipeline.uniforms)).2.1.next,
          Event.create_pipeline_handle
            ((create_set_layouts d (get_sorted_sets pipeline.uniforms)).2.1.next + 1)]
  rw [(create_set_layouts_spec _ d).2]

theorem map_classOf_destroy_set_layout (l : List Nat) :
    l.map (Event.classOf ∘ Event.destroy_set_layout)
      = List.replicate l.length .setLayout := by
  induction l <;> simp [Event.classOf, List.replicate_succ, *]

theorem map_classOf_create_set_layout (l : List Nat) :
    l.map (Event.classOf ∘ Event.create_set_layout)
      = List.replicate l.length .setLayout := by
  induction l <;> simp [Event.classOf, List.replicate_succ, *]

theorem map_classOf_destroy_pool (l : List DescriptorCache) :
    (l.map (Event.classOf ∘ fun c => Event.destroy_pool c.pool_handle))
      = List.replicate l.length .pool := by
  induction l <;> simp [Event.classOf, List.replicate_succ, *]

theorem filter_not_pool_destroy_set_layout (l : List Nat) :
    (l.map Event.destroy_set_layout).filter (fun e => e.classOf != .pool)
      = l.map Event.destroy_set_layout := by
  induction l <;> simp [Event.classOf, *]

theorem filter_not_pool_destroy_pool (l : List DescriptorCache) :
    (l.map fun c => Event.destroy_pool c.pool_handle).filter
        (fun e => e.classOf != .pool) = [] := by
  induction l <;> simp [Event.classOf, *]

theorem dedup_replicate_succ {α : Type} [DecidableEq α] (a : α) (n : Nat) :
    (List.replicate (n + 1) a).dedup = [a] := by
  induction n with
  | zero => simp
  | succ m ih =>
    rw [List.replicate_succ, List.dedup_cons_of_mem (by simp [List.mem_replicate]), ih]

theorem dedup_po_pl_s (k : Nat) :
    (([ResourceClass.pipelineObj, ResourceClass.pipelineLayout]
        ++ List.replicate k ResourceClass.setLayout).dedup)
      = if k = 0 then [ResourceClass.pipelineObj, ResourceClass.pipelineLayout]
        else [ResourceClass.pipelineObj, ResourceClass.pipelineLayout,
              ResourceClass.setLayout] := by
  cases k with
  | zero => decide
  | succ m =>
    rw [if_neg (Nat.succ_ne_zero m)]
    simp only [List.cons_append, List.nil_append]
    rw [List.dedup_cons_of_not_mem (by simp [List.mem_replicate]),
        List.dedup_cons_of_not_mem (by simp [List.mem_replicate]),
        dedup_replicate_succ]

theorem dedup_s_pl_po (k : Nat) :
    ((List.replicate k ResourceClass.setLayout
        ++ [ResourceClass.pipelineLayout, ResourceClass.pipelineObj]).dedup)
      = if k = 0 then [ResourceClass.pipelineLayout, ResourceClass.pipelineObj]
        else [ResourceClass.setLayout, ResourceClass.pipelineLayout,
              ResourceClass.pipelineObj] := by
  induction k with
  | zero => decide
  | succ m ih =>
    rw [if_neg (Nat.succ_ne_zero m), List.replicate_succ, List.cons_append]
    cases m with
    | zero => decide
    | succ m2 =>
      rw [List.dedup_cons_of_mem
            (by simp [List.mem_append, List.mem_replicate]),
          ih, if_neg (Nat.succ_ne_zero m2)]

/-- C7: destroying one `PipelineVariant` releases, of its pipeline / pipeline
layout / set layouts, the pipeline first, then the pipeline layout, then each
descriptor-set layout; at the resource-class level this is the reverse of the
construction order, in which set layouts are created before the pipeline
layout, before the pipeline object. -/
theorem c7_drop_order (pipeline : PipelineInterface) (d : Device)
    (q : PipelineStruct) :
    ((pipeline_drop_trace q).filter (fun e => e.classOf != .pool))
      = .destroy_pipeline_handle q.pipeline
          :: .destroy_pipeline_layout q.layout
          :: (q.set_layouts.map .destroy_set_layout) ∧
    ((pipeline_new pipeline d).2.2.map Event.classOf
      = List.replicate (pipeline_new pipeline d).1.set_layouts.length .setLayout
          ++ [.pipelineLayout, .pipelineObj]) ∧
    ((pipeline_drop_trace (pipeline_new pipeline d).1).map Event.classOf).dedup
      = (((pipeline_new pipeline d).2.2.map Event.classOf).dedup).reverse := by
  refine ⟨?_, ?_, ?_⟩
  · simp only [pipeline_drop_trace, List.filter_cons, List.filter_append,
      filter_not_pool_destroy_set_layout, filter_not_pool_destroy_pool,
      List.append_nil]
    rfl
  · rw [(pipeline_new_spec pipeline d).2.2.2.2.2]
    simp [map_classOf_create_set_layout, Event.classOf]
  · rw [(pipeline_new_spec pipeline d).2.2.2.2.2]
    have hL : ((pipeline_drop_trace (pipeline_new pipeline d).1).map Event.classOf)
        = [ResourceClass.pipelineObj, ResourceClass.pipelineLayout]
            ++ List.replicate (pipeline_new pipeline d).1.set_layouts.length
                ResourceClass.setLayout := by
      simp [pipeline_drop_trace, (pipeline_new_spec pipeline d).1,
        map_classOf_destroy_set_layout, Event.classOf]
    have hR : (((pipeline_new pipeline d).1.set_layouts.map Event.create_set_layout
          ++ [Event.create_pipeline_layout (pipeline_new pipeline d).1.layout,
              Event.create_pipeline_handle (pipeline_new pipeline d).1.pipeline]).map
            Event.classOf)
        = List.replicate (pipeline_new pipeline d).1.set_layouts.length
            ResourceClass.setLayout
          ++ [ResourceClass.pipelineLayout, ResourceClass.pipelineObj] := by
      simp [map_classOf_create_set_layout, Event.classOf]
    rw [hL, hR, dedup_po_pl_s, dedup_s_pl_po]
    cases (pipeline_new pipeline d).1.set_layouts.length <;> simp

theorem get_shader_module_pipelines (s : RegistryState) :
    (get_shader_module s).2.pipelines = s.pipelines := by
  rcases h : s.shader_module with _ | m <;> simp [get_shader_module, h]

theorem get_shader_module_next (s : RegistryState) :
    s.device.next ≤ (get_shader_module s).2.device.next := by
  rcases h : s.shader_module with _ | m <;>
    simp [get_shader_module, h, Device.alloc]

theorem registry_get_mut_eq (ifaces : List PipelineInterface)
    (s : RegistryState) (i : Nat) :
    registry_get_mut ifaces s i = registry_get ifaces s i := rfl

theorem registry_get_hit (ifaces : List PipelineInterface) (s : RegistryState)
    (i : Nat) (p : PipelineStruct) (h : s.pipelines.getD i none = some p) :
    registry_get ifaces s i = some (p, s) := by
  rw [List.getD_eq_getElem?_getD] at h
  unfold registry_get
  simp [List.getD_eq_getElem?_getD, h]

theorem registry_get_miss (ifaces : List PipelineInterface) (s : RegistryState)
    (i : Nat) (hlt : i < s.pipelines.length)
    (h : s.pipelines.getD i none = none) :
    registry_get ifaces s i
      = some ((pipeline_new (ifaces.getD i default) (get_shader_module s).2.device).1,
          { (get_shader_module s).2 with
            pipelines := (get_shader_module s).2.pipelines.set i
              (some (pipeline_new (ifaces.getD i default)
                (get_shader_module s).2.device).1)
            device := (pipeline_new (ifaces.getD i default)
              (get_shader_module s).2.device).2.1 }) := by
  have hset : (((get_shader_module s).2.pipelines.set i
        (some (pipeline_new (ifaces.getD i default)
          (get_shader_module s).2.device).1))).getD i none
      = some (pipeline_new (ifaces.getD i default)
          (get_shader_module s).2.device).1 := by
    rw [List.getD_eq_getElem?_getD,
      List.getElem?_set_self (by rw [get_shader_module_pipelines]; omega)]
    rfl
  simp only [List.getD_eq_getElem?_getD] at h hset
  unfold registry_get registry_create_pipeline
  simp [List.getD_eq_getElem?_getD, h, hset]

theorem registry_get_oob (ifaces : List PipelineInterface) (s : RegistryState)
    (i : Nat) (hge : s.pipelines.length ≤ i)
    (h : s.pipelines.getD i none = none) :
    registry_get ifaces s i = none := by
  have hset : ∀ a : Option PipelineStruct, s.pipelines.set i a = s.pipelines :=
    fun a => List.set_eq_of_length_le (by omega)
  simp only [List.getD_eq_getElem?_getD] at h
  unfold registry_get registry_create_pipeline
  simp [List.getD_eq_getElem?_getD, h, hset, get_shader_module_pipelines]

theorem getD_map_none {α : Type} (l : List α) (i : Nat) :
    (l.map (fun _ => (none : Option PipelineStruct))).getD i none = none := by
  induction l generalizing i with
  | nil => rfl
  | cons a rest ih => cases i <;> simp [ih]

/-- The registry invariant: every stored handle is below the device counter
(`Bounded`) and no two slots share a pipeline or layout handle
(`DistinctSlots`). -/
def Bounded (s : RegistryState) : Prop :=
  ∀ i v, s.pipelines.getD i none = some v →
    v.pipeline < s.device.next ∧ v.layout < s.device.next

def DistinctSlots (s : RegistryState) : Prop :=
  ∀ i j vi vj, i ≠ j → s.pipelines.getD i none = some vi →
    s.pipelines.getD j none = some vj →
    vi.pipeline ≠ vj.pipeline ∧ vi.layout ≠ vj.layout

def RegInv (s : RegistryState) : Prop := Bounded s ∧ DistinctSlots s

theorem registry_get_chars (ifaces : List PipelineInterface)
    (s : RegistryState) (i : Nat) (p : PipelineStruct) (s1 : RegistryState)
    (h : registry_get ifaces s i = some (p, s1)) :
    s1.pipelines.getD i none = some p ∧
    (∀ j, j ≠ i → s1.pipelines.getD j none = s.pipelines.getD j none) ∧
    s.device.next ≤ s1.device.next ∧
    ((s.pipelines.getD i none = some p ∧ s1 = s) ∨
     (s.pipelines.getD i none = none ∧
      (get_shader_module s).2.device.next ≤ p.layout ∧
      p.layout < p.pipeline ∧ p.pipeline < s1.device.next)) := by
  cases hn : s.pipelines.getD i none with
  | some v =>
    rw [registry_get_hit ifaces s i v hn] at h
    injection h with h2
    injection h2 with hp hs
    subst hp
    subst hs
    exact ⟨hn, fun j _ => rfl, le_refl _, Or.inl ⟨rfl, rfl⟩⟩
  | none =>
    by_cases hlt : i < s.pipelines.length
    · rw [registry_get_miss ifaces s i hlt hn] at h
      injection h with h2
      injection h2 with hp hs
      subst hp
      subst hs
      dsimp only
      have hspec := pipeline_new_spec (ifaces.getD i default)
        (get_shader_module s).2.device
      refine ⟨?_, ?_, ?_, Or.inr ⟨rfl, hspec.2.2.1, hspec.2.2.2.1, hspec.2.2.2.2.1⟩⟩
      · rw [List.getD_eq_getElem?_getD,
          List.getElem?_set_self (by rw [get_shader_module_pipelines]; omega)]
        rfl
      · intro j hj
        rw [List.getD_eq_getElem?_getD, List.getElem?_set_ne (by omega),
          ← List.getD_eq_getElem?_getD, get_shader_module_pipelines]
      · have h1 := get_shader_module_next s
        have h2 := hspec.2.2.1
        have h3 := hspec.2.2.2.1
        have h4 := hspec.2.2.2.2.1
        omega
    · rw [registry_get_oob ifaces s i (by omega) hn] at h
      cases h

theorem registry_get_preserves_inv (ifaces : List PipelineInterface)
    (s : RegistryState) (i : Nat) (p : PipelineStruct) (s1 : RegistryState)
    (hinv : RegInv s) (h : registry_get ifaces s i = some (p, s1)) :
    RegInv s1 := by
  obtain ⟨hstore, hother, hnext, hcase⟩ := registry_get_chars ifaces s i p s1 h
  rcases hcase with ⟨_, rfl⟩ | ⟨hnone, hfresh1, hfresh2, hfresh3⟩
  · exact hinv
  · have hgs := get_shader_module_next s
    constructor
    · intro j v hv
      by_cases hj : j = i
      · subst hj
        rw [hstore] at hv
        cases hv
        omega
      · rw [hother j hj] at hv
        have := hinv.1 j v hv
        omega
    · intro j k vj vk hjk hvj hvk
      by_cases hj : j = i
      · subst hj
        rw [hstore] at hvj
        cases hvj
        rw [hother k (by omega)] at hvk
        have := hinv.1 k vk hvk
        constructor <;> omega
      · by_cases hk : k = i
        · subst hk
          rw [hstore] at hvk
          cases hvk
          rw [hother j hj] at hvj
          have := hinv.1 j vj hvj
          constructor <;> omega
        · rw [hother j hj] at hvj
          rw [hother k hk] at hvk
          exact hinv.2 j k vj vk hjk hvj hvk

theorem registry_get_distinct (ifaces : List PipelineInterface)
    (s1 : RegistryState) (i j : Nat) (p q : PipelineStruct) (s2 : RegistryState)
    (hinv1 : RegInv s1) (hstore : s1.pipelines.getD i none = some p)
    (hij : i ≠ j) (h2 : registry_get ifaces s1 j = some (q, s2)) :
    p.pipeline ≠ q.pipeline ∧ p.layout ≠ q.layout := by
  obtain ⟨_, _, _, hcase⟩ := registry_get_chars ifaces s1 j q s2 h2
  rcases hcase with ⟨hq, rfl⟩ | ⟨_, hf1, hf2, _⟩
  · exact hinv1.2 i j p q hij hstore hq
  · have hb := hinv1.1 i p hstore
    have hgs := get_shader_module_next s1
    constructor <;> omega

/-- C1: the registry's `get`/`get_mut` lazily construct the variant for an
identity on first request and, once a request has succeeded, every later
request for the same identity returns the same stored instance with the
registry unchanged (at-most-one construction per identity); `get_mut` is the
same access path as `get`; the registry invariant (`RegInv`) holds for a
fresh registry, is preserved by `get`, and under it two requests for
different identities return variants sharing neither their pipeline nor
their layout handle. -/
theorem c1_registry_cache (ifaces : List PipelineInterface) (d : Device)
    (s s1 s2 : RegistryState) (i j : Nat) (p q : PipelineStruct) :
    RegInv (registry_new ifaces d) ∧
    registry_get_mut ifaces s i = registry_get ifaces s i ∧
    (s.pipelines.getD i none = none → i < s.pipelines.length →
      registry_get ifaces s i
        = some ((pipeline_new (ifaces.getD i default)
              (get_shader_module s).2.device).1,
            { (get_shader_module s).2 with
              pipelines := (get_shader_module s).2.pipelines.set i
                (some (pipeline_new (ifaces.getD i default)
                  (get_shader_module s).2.device).1)
              device := (pipeline_new (ifaces.getD i default)
                (get_shader_module s).2.device).2.1 })) ∧
    (registry_get ifaces s i = some (p, s1) →
      registry_get ifaces s1 i = some (p, s1) ∧
      registry_get_mut ifaces s1 i = some (p, s1)) ∧
    (RegInv s → registry_get ifaces s i = some (p, s1) → RegInv s1) ∧
    (RegInv s → i ≠ j →
      registry_get ifaces s i = some (p, s1) →
      registry_get ifaces s1 j = some (q, s2) →
      p.pipeline ≠ q.pipeline ∧ p.layout ≠ q.layout) := by
  refine ⟨⟨?_, ?_⟩, rfl, fun hn hlt => registry_get_miss ifaces s i hlt hn,
    ?_, ?_, ?_⟩
  · intro i0 v hv
    rw [show (registry_new ifaces d).pipelines
        = ifaces.map (fun _ => none) from rfl, getD_map_none] at hv
    cases hv
  · intro i0 j0 vi vj _ hvi _
    rw [show (registry_new ifaces d).pipelines
        = ifaces.map (fun _ => none) from rfl, getD_map_none] at hvi
    cases hvi
  · intro h
    have hs := (registry_get_chars ifaces s i p s1 h).1
    exact ⟨registry_get_hit ifaces s1 i p hs,
      by rw [registry_get_mut_eq]; exact registry_get_hit ifaces s1 i p hs⟩
  · intro hinv h
    exact registry_get_preserves_inv ifaces s i p s1 hinv h
  · intro hinv hij h1 h2
    exact registry_get_distinct ifaces s1 i j p q s2
      (registry_get_preserves_inv ifaces s i p s1 hinv h1)
      (registry_get_chars ifaces s i p s1 h1).1 hij h2

/-- A two-pipeline module used for concrete registry runs. -/
def exampleIfaces : List PipelineInterface :=
  [⟨"main", [.Vec3], []⟩, ⟨"secondary", [], []⟩]

def exampleS0 : RegistryState := registry_new exampleIfaces ⟨0⟩

def exampleP0 : PipelineStruct :=
  ⟨[], 3, 2, [], "main"⟩

def exampleS1 : RegistryState :=
  ⟨0, [some exampleP0, none], some 1, ⟨4⟩⟩

def exampleQ1 : PipelineStruct :=
  ⟨[], 5, 4, [], "secondary"⟩

def exampleS2 : RegistryState :=
  ⟨0, [some exampleP0, some exampleQ1], some 1, ⟨6⟩⟩

theorem c1_registry_cache_witness :
    registry_get exampleIfaces exampleS0 0 = some (exampleP0, exampleS1) ∧
    registry_get exampleIfaces exampleS1 0 = some (exampleP0, exampleS1) ∧
    registry_get exampleIfaces exampleS1 1 = some (exampleQ1, exampleS2) ∧
    exampleP0.pipeline ≠ exampleQ1.pipeline ∧
    exampleP0.layout ≠ exampleQ1.layout := by
  have h1 : registry_get exampleIfaces exampleS0 0
      = some (exampleP0, exampleS1) := by decide
  have h2 : registry_get exampleIfaces exampleS1 1
      = some (exampleQ1, exampleS2) := by decide
  refine ⟨h1, ?_, h2, ?_⟩
  · exact ((c1_registry_cache exampleIfaces ⟨0⟩ exampleS0 exampleS1 exampleS2
      0 1 exampleP0 exampleQ1).2.2.2.1 h1).1
  · exact (c1_registry_cache exampleIfaces ⟨0⟩ exampleS0 exampleS1 exampleS2
      0 1 exampleP0 exampleQ1).2.2.2.2.2
      (c1_registry_cache exampleIfaces ⟨0⟩ exampleS0 exampleS1 exampleS2
        0 1 exampleP0 exampleQ1).1
      (by decide) h1 h2

/-- C9 (implicit): the assertion inside the generated `create_pipeline` (the
slot for the requested identity is still unconstructed) can never fail when
reached through the public interface: `get` and `get_mut` only call it after
checking the slot is `None`, and under that check `create_pipeline` cannot
panic; consequently `get`/`get_mut` never hit the assertion (nor the
subsequent `unwrap`). -/
theorem c9_assert_unreachable (ifaces : List PipelineInterface)
    (s : RegistryState) (i : Nat) (hlt : i < s.pipelines.length) :
    registry_get ifaces s i ≠ none ∧
    registry_get_mut ifaces s i ≠ none ∧
    ((s.pipelines.getD i none).isNone →
      registry_create_pipeline ifaces s i ≠ none) := by
  have hget : registry_get ifaces s i ≠ none := by
    cases hn : s.pipelines.getD i none with
    | some v => rw [registry_get_hit ifaces s i v hn]; simp
    | none => rw [registry_get_miss ifaces s i hlt hn]; simp
  refine ⟨hget, by rw [registry_get_mut_eq]; exact hget, ?_⟩
  intro hno
  have hn : s.pipelines.getD i none = none := Option.isNone_iff_eq_none.mp hno
  unfold registry_create_pipeline
  rw [hn]
  simp

theorem c9_assert_unreachable_witness :
    0 < exampleS0.pipelines.length ∧
    registry_get exampleIfaces exampleS0 0 ≠ none :=
  ⟨by decide,
   (c9_assert_unreachable exampleIfaces exampleS0 0 (by decide)).1⟩

theorem drop_variants_go_mem (l : List (Option PipelineStruct)) :
    ∀ (n k : Nat) (v : PipelineStruct), l.getD k none = some v →
      (n + k, v) ∈ drop_variants_go n l := by
  induction l with
  | nil => intro n k v h; cases h
  | cons o rest ih =>
    intro n k v h
    cases k with
    | zero =>
      rw [List.getD_cons_zero] at h
      subst h
      exact List.mem_cons_self _ _
    | succ k2 =>
      rw [List.getD_cons_succ] at h
      have hmem := ih (n + 1) k2 v h
      have harith : n + (k2 + 1) = (n + 1) + k2 := by omega
      rw [harith]
      cases o with
      | none => exact hmem
      | some w => exact List.mem_cons_of_mem _ hmem

theorem drop_variants_go_sound (l : List (Option PipelineStruct)) :
    ∀ n, ∀ iv ∈ drop_variants_go n l,
      n ≤ iv.1 ∧ l.getD (iv.1 - n) none = some iv.2 := by
  induction l with
  | nil => intro n iv h; cases h
  | cons o rest ih =>
    intro n iv h
    cases o with
    | none =>
      have hr := ih (n + 1) iv h
      refine ⟨by omega, ?_⟩
      have hd : iv.1 - n = (iv.1 - (n + 1)) + 1 := by omega
      rw [hd, List.getD_cons_succ]
      exact hr.2
    | some w =>
      rcases List.mem_cons.mp h with heq | hmem
      · subst heq
        exact ⟨le_refl _, by simp⟩
      · have hr := ih (n + 1) iv hmem
        refine ⟨by omega, ?_⟩
        have hd : iv.1 - n = (iv.1 - (n + 1)) + 1 := by omega
        rw [hd, List.getD_cons_succ]
        exact hr.2

theorem drop_variants_go_sorted (l : List (Option PipelineStruct)) :
    ∀ n, List.Sorted (· < ·) ((drop_variants_go n l).map Prod.fst) := by
  induction l with
  | nil => intro n; simp [drop_variants_go]
  | cons o rest ih =>
    intro n
    cases o with
    | none => exact ih (n + 1)
    | some w =>
      simp only [drop_variants_go, List.map_cons]
      rw [List.sorted_cons]
      refine ⟨?_, ih (n + 1)⟩
      intro b hb
      obtain ⟨iv, hiv, rfl⟩ := List.mem_map.mp hb
      have := (drop_variants_go_sound rest (n + 1) iv hiv).1
      omega

theorem countP_eq_one_of_nodup_mem {α : Type} [DecidableEq α] {l : List α}
    {a : α} (hnd : l.Nodup) (hm : a ∈ l) :
    l.countP (fun b => decide (b = a)) = 1 := by
  induction l with
  | nil => cases hm
  | cons x rest ih =>
    rw [List.countP_cons]
    rcases List.mem_cons.mp hm with rfl | hmem
    · have hnotin : a ∉ rest := (List.nodup_cons.mp hnd).1
      have hz : rest.countP (fun b => decide (b = a)) = 0 := by
        rw [List.countP_eq_zero]
        intro b hb
        simp only [decide_eq_true_eq]
        rintro rfl
        exact hnotin hb
      simp [hz]
    · have hne : x ≠ a := by
        rintro rfl
        exact (List.nodup_cons.mp hnd).1 hmem
      have hr := ih (List.nodup_cons.mp hnd).2 hmem
      simp [hr, hne]

/-- C8 (amended): destroying the registry releases every constructed variant
exactly once, and in ascending identity (slot) order — the implicit drop
order of the `pipelines` array field — not in reverse construction order. -/
theorem c8_registry_drop (s : RegistryState) (i : Nat) (v : PipelineStruct) :
    List.Sorted (· < ·) ((registry_drop_variants s).map Prod.fst) ∧
    (∀ iv ∈ registry_drop_variants s,
      s.pipelines.getD iv.1 none = some iv.2) ∧
    (s.pipelines.getD i none = some v →
      (i, v) ∈ registry_drop_variants s ∧
      (registry_drop_variants s).countP (fun iv => decide (iv = (i, v))) = 1) := by
  refine ⟨drop_variants_go_sorted s.pipelines 0, ?_, ?_⟩
  · intro iv hiv
    have hr := drop_variants_go_sound s.pipelines 0 iv hiv
    simpa using hr.2
  · intro hv
    have hmem : (i, v) ∈ registry_drop_variants s := by
      have := drop_variants_go_mem s.pipelines 0 i v hv
      simpa using this
    refine ⟨hmem, ?_⟩
    have hnodup : (registry_drop_variants s).Nodup :=
      List.Nodup.of_map Prod.fst
        ((drop_variants_go_sorted s.pipelines 0).nodup)
    exact countP_eq_one_of_nodup_mem hnodup hmem

theorem c8_registry_drop_witness :
    exampleS2.pipelines.getD 0 none = some exampleP0 ∧
    (0, exampleP0) ∈ registry_drop_variants exampleS2 ∧
    (registry_drop_variants exampleS2).countP
      (fun iv => decide (iv = (0, exampleP0))) = 1 :=
  ⟨by decide,
   ((c8_registry_drop exampleS2 0 exampleP0).2.2 (by decide)).1,
   ((c8_registry_drop exampleS2 0 exampleP0).2.2 (by decide)).2⟩

/-- C8 counterexample: running `get 0` then `get 1` on a fresh two-identity
registry constructs the variants in order `[0, 1]`, whose reverse is
`[1, 0]`, but destroying the registry releases the variants in slot order
`[0, 1]` — not in reverse construction order as claimed. -/
theorem c8_registry_drop_counterexample :
    (run_gets exampleIfaces (registry_new exampleIfaces ⟨0⟩) [0, 1]).map
        (fun so => ((registry_drop_variants so.1).map Prod.fst, so.2.reverse))
      = some ([0, 1], [1, 0]) ∧
    ([0, 1] : List Nat) ≠ [1, 0] := by
  exact ⟨by decide, by decide⟩

/-- The test shader module `simple.rs`: `main_fs` is a fragment entry point,
`main_vs` a vertex entry point. -/
def simpleModule : List Func :=
  [ ⟨"main_fs", [.list "spirv" [.metaPath "fragment"]]⟩,
    ⟨"main_vs", [.list "spirv" [.metaPath "vertex"]]⟩ ]

theorem get_pipelines_cons (f : Func) (rest : List Func) :
    get_pipelines (f :: rest)
      = (if is_fragment_entry f
         then [⟨to_camelcase (entry_point_base f.name)⟩]
         else []) ++ get_pipelines rest := by
  unfold get_pipelines is_fragment_entry
  rw [List.filterMap_cons]
  cases hsp : get_spirv f with
  | none => simp [hsp]
  | some sp =>
    cases hst : get_shader_type sp with
    | none => simp [hsp, hst]
    | some ty => cases ty <;> simp [hsp, hst]

theorem get_pipelines_length (funcs : List Func) :
    (get_pipelines funcs).length = funcs.countP is_fragment_entry := by
  induction funcs with
  | nil => rfl
  | cons f rest ih =>
    rw [get_pipelines_cons, List.countP_cons]
    cases hf : is_fragment_entry f <;> simp [hf, ih]

theorem get_pipelines_names (funcs : List Func) :
    (get_pipelines funcs).map DiscoveredPipeline.name
      = (funcs.filter is_fragment_entry).map
          (fun f => to_camelcase (entry_point_base f.name)) := by
  induction funcs with
  | nil => rfl
  | cons f rest ih =>
    rw [get_pipelines_cons, List.filter_cons]
    cases hf : is_fragment_entry f <;> simp [hf, ih]

/-- C6: pipeline discovery keys on fragment entry points only — every
function whose spirv metadata marks it as a fragment stage yields exactly one
pipeline, named by the camelcased common prefix of its entry point; a module
with no fragment entry point yields zero pipelines; vertex-stage or
unannotated functions contribute nothing. Concretely, the `simple.rs` module
(`main_fs` fragment + `main_vs` vertex) yields exactly the pipeline `Main`,
and its vertex entry point alone yields none. -/
theorem c6_pipeline_discovery (funcs : List Func) :
    (get_pipelines funcs).length = funcs.countP is_fragment_entry ∧
    ((∀ f ∈ funcs, is_fragment_entry f = false) → get_pipelines funcs = []) ∧
    (get_pipelines funcs).map DiscoveredPipeline.name
      = (funcs.filter is_fragment_entry).map
          (fun f => to_camelcase (entry_point_base f.name)) ∧
    get_pipelines simpleModule = [⟨"Main"⟩] ∧
    get_pipelines [⟨"main_vs", [.list "spirv" [.metaPath "vertex"]]⟩] = [] := by
  refine ⟨get_pipelines_length funcs, ?_, get_pipelines_names funcs,
    by decide, by decide⟩
  intro hall
  have hz : funcs.countP is_fragment_entry = 0 := by
    rw [List.countP_eq_zero]
    intro f hf
    simp [hall f hf]
  have hl := get_pipelines_length funcs
  rw [hz] at hl
  exact List.eq_nil_of_length_eq_zero hl

theorem c6_pipeline_discovery_witness :
    (∀ f ∈ [(⟨"main_vs", [.list "spirv" [.metaPath "vertex"]]⟩ : Func)],
      is_fragment_entry f = false) ∧
    get_pipelines [(⟨"main_vs", [.list "spirv" [.metaPath "vertex"]]⟩ : Func)]
      = [] :=
  ⟨by decide,
   (c6_pipeline_discovery
      [(⟨"main_vs", [.list "spirv" [.metaPath "vertex"]]⟩ : Func)]).2.1
     (by decide)⟩

end Pipewriter
